import Mathlib

/-
Verification of the MAP (MedhaAlgoPilot) order-execution pipeline spec
against the repository sources.  The frontend TypeScript under
src/frontend is embedded directly; the backend core components (Order
Manager, Risk Engine, Position Ledger), whose Python sources are not in
the repository snapshot, are modelled from the spec where a claim needs
them (each such definition says so in its doc comment).
-/

namespace MAP

/-! ## Frontend WebSocket subscriber (frontend/hooks/useWebSocket.ts) -/

/-- The WebSocketEvent interface declared at lines 5-9 of
frontend/hooks/useWebSocket.ts: a typed record with fields event_type,
data and timestamp.  The payload slot is the field named data; the value
type is the TS any, embedded as a type parameter. -/
structure WebSocketEvent (α : Type) where
  event_type : String
  data : α
  timestamp : String

/-- The field names of the WebSocketEvent interface, in declaration
order, exactly as they appear at lines 5-9 of useWebSocket.ts. -/
def WebSocketEventFields : List String := ["event_type", "data", "timestamp"]

/-- The ws.onmessage handler (useWebSocket.ts lines 29-36): JSON.parse
runs inside a try block; on parse failure the error is caught (logged to
console) and the events list is left unchanged; on success the parsed
value is appended to the events list.  The parse attempt is embedded as
an Except value: error carries the caught exception message. -/
def onMessage {α : Type} (parseResult : Except String α) (prev : List α) : List α :=
  match parseResult with
  | Except.error _ => prev
  | Except.ok d => prev ++ [d]

/-- Processing a sequence of incoming messages in arrival order, each
through onMessage, starting from an accumulated events list. -/
def processMessages {α : Type} (parse : String → Except String α)
    (msgs : List String) (init : List α) : List α :=
  msgs.foldl (fun evs m => onMessage (parse m) evs) init

/-! ## Frontend API client (frontend/lib/api.ts) -/

/-- Browser side effects performed by the response interceptor. -/
inductive Effect where
  | removeToken : Effect
  | redirect : String → Effect
deriving DecidableEq, Repr

/-- An axios response as seen by the interceptor: HTTP status and body. -/
structure HttpResponse (α : Type) where
  status : Nat
  data : α

/-- An axios error: the response is absent on transport failure
(the source reads error.response with optional chaining). -/
structure ApiError (α : Type) where
  response : Option (HttpResponse α)

/-- The success branch of apiClient.interceptors.response.use
(api.ts line 23): the promise resolves to response.data. -/
def onResponse {α : Type} (r : HttpResponse α) : α := r.data

/-- The error branch of the response interceptor (api.ts lines 24-30):
when error.response has status 401, the access_token key is removed from
localStorage and the browser is redirected to /auth/login; in every case
the promise then rejects with the original error.  The first component
lists the side effects in order, the second is the rejection value. -/
def onResponseError {α : Type} (e : ApiError α) : List Effect × ApiError α :=
  if (e.response.map (fun r => r.status)) = some 401 then
    ([Effect.removeToken, Effect.redirect "/auth/login"], e)
  else
    ([], e)

/-! ## Positions page (src/unnamed/part_003, PositionsPage) -/

/-- The Position interface declared at lines 9-18 of the positions page:
quantity is signed; average_price, current_price and unrealized_pnl are
number-or-null, embedded as Option values. -/
structure Position where
  id : Nat
  symbol : String
  quantity : Int
  average_price : Option Rat
  current_price : Option Rat
  unrealized_pnl : Option Rat
  created_at : String
  updated_at : String

/-- An HTTP GET request issued through apiClient: path and query
parameters. -/
structure ApiRequest where
  path : String
  query : List (String × String)
deriving DecidableEq, Repr

/-- The request issued by loadPositions (positions page, lines 41-51):
apiClient.get of the literal path /api/positions, with no query
parameters at all. -/
def loadPositionsRequest : ApiRequest :=
  { path := "/api/positions", query := [] }

/-- The Total Unrealized P&L summary computed by the positions page:
a reduce over positions adding unrealized_pnl, treating null as 0. -/
def totalUnrealizedPnl (ps : List Position) : Rat :=
  ps.foldl (fun sum pos => sum + (pos.unrealized_pnl.getD 0)) 0

/-! ## Strategy start handlers (dashboard/strategies pages) -/

/-- A broker account as consumed by handleStartStrategy: only the id and
the is_default flag are read. -/
structure BrokerAccount where
  id : Nat
  is_default : Bool
deriving DecidableEq, Repr

/-- The body of the POST to /api/strategies/:id/runs. The config object
literal is empty; it is embedded as a key-value list. -/
structure StartRunRequest where
  broker_account_id : Nat
  trading_mode : String
  config : List (String × String)
deriving DecidableEq, Repr

/-- handleStartStrategy from the strategies list page (lines 89-108):
fetches broker accounts; when the list is empty it alerts and returns
without posting; otherwise it picks the account marked is_default, or
the first account when none is marked, and posts a run request with
trading_mode paper and an empty config. -/
def handleStartStrategyList (accounts : List BrokerAccount) : Option StartRunRequest :=
  match accounts with
  | [] => none
  | a :: rest =>
    let defaultAccount := (((a :: rest).find? (fun acc => acc.is_default)).getD a)
    some { broker_account_id := defaultAccount.id, trading_mode := "paper", config := [] }

/-- handleStartStrategy from the strategy detail page (lines 67-86):
identical logic to the list page. -/
def handleStartStrategyDetail (accounts : List BrokerAccount) : Option StartRunRequest :=
  match accounts with
  | [] => none
  | a :: rest =>
    let defaultAccount := (((a :: rest).find? (fun acc => acc.is_default)).getD a)
    some { broker_account_id := defaultAccount.id, trading_mode := "paper", config := [] }

/-! ## Risk page (src/unnamed/part_004, RiskPage) -/

/-- The RiskEvent interface declared on the risk page: the severity is a
plain string as received from the API. -/
structure UiRiskEvent where
  id : Nat
  event_type : String
  severity : String
  message : String
  created_at : String

/-! ## Order Manager state machine -/

/-- Modelled from the spec: the Order Manager source is not in the
repository snapshot; the order states of spec section 4.3. -/
inductive OrderState where
  | pending
  | submitted
  | partiallyFilled
  | filled
  | rejected
  | cancelled
deriving DecidableEq, Repr

/-- Modelled from the spec: the allowed single transitions of the state
machine of section 4.3, including the transitions named in the submit,
on_broker_update and cancel bullets (submit reject, transport exhaustion
and cancel act on a PENDING order; PARTIALLY_FILLED may repeat, fill or
cancel). -/
def validTransition : OrderState → OrderState → Bool
  | OrderState.pending, OrderState.submitted => true
  | OrderState.pending, OrderState.rejected => true
  | OrderState.pending, OrderState.cancelled => true
  | OrderState.submitted, OrderState.filled => true
  | OrderState.submitted, OrderState.partiallyFilled => true
  | OrderState.submitted, OrderState.rejected => true
  | OrderState.submitted, OrderState.cancelled => true
  | OrderState.partiallyFilled, OrderState.partiallyFilled => true
  | OrderState.partiallyFilled, OrderState.filled => true
  | OrderState.partiallyFilled, OrderState.cancelled => true
  | _, _ => false

/-- Modelled from the spec: the events the Order Manager applies to one
order after creation in PENDING (section 4.3): synchronous broker accept
or reject of the submission (reject also stands for an exhausted
transport-retry budget), broker updates reporting a partial fill, a full
fill, a rejection or a cancellation, and a confirmed local cancel. -/
inductive MgrEvent where
  | submitAccept
  | submitReject
  | brokerPartialFill
  | brokerFullFill
  | brokerReject
  | brokerCancelled
  | cancelConfirm
deriving DecidableEq, Repr

/-- Modelled from the spec: the single authoritative transition function.
Submission outcomes apply only to a PENDING order; broker updates apply
only to SUBMITTED or PARTIALLY_FILLED orders (an update referencing a
terminal order is ignored and logged, never re-applied); cancel is
permitted only from PENDING or SUBMITTED.  Every inapplicable event
leaves the state unchanged. -/
def applyEvent : OrderState → MgrEvent → OrderState
  | OrderState.pending, MgrEvent.submitAccept => OrderState.submitted
  | OrderState.pending, MgrEvent.submitReject => OrderState.rejected
  | OrderState.pending, MgrEvent.cancelConfirm => OrderState.cancelled
  | OrderState.submitted, MgrEvent.brokerPartialFill => OrderState.partiallyFilled
  | OrderState.submitted, MgrEvent.brokerFullFill => OrderState.filled
  | OrderState.submitted, MgrEvent.brokerReject => OrderState.rejected
  | OrderState.submitted, MgrEvent.brokerCancelled => OrderState.cancelled
  | OrderState.submitted, MgrEvent.cancelConfirm => OrderState.cancelled
  | OrderState.partiallyFilled, MgrEvent.brokerPartialFill => OrderState.partiallyFilled
  | OrderState.partiallyFilled, MgrEvent.brokerFullFill => OrderState.filled
  | OrderState.partiallyFilled, MgrEvent.brokerCancelled => OrderState.cancelled
  | s, _ => s

/-- The sequence of states an order passes through from a start state,
one entry per observation point (initial state, then the state after
each applied event). -/
def runFrom (s : OrderState) : List MgrEvent → List OrderState
  | [] => [s]
  | e :: es => s :: runFrom (applyEvent s e) es

/-- The observed state sequence of an order created in PENDING. -/
def observedStates (events : List MgrEvent) : List OrderState :=
  runFrom OrderState.pending events

/-- A state sequence is a valid path of the section 4.3 machine when
each consecutive pair is either a stutter (an ignored event) or an
allowed transition. -/
def validPath : List OrderState → Bool
  | [] => true
  | [_] => true
  | a :: b :: rest => (a == b || validTransition a b) && validPath (b :: rest)

/-! ## Position Ledger -/

/-- Order side, shared by intents, orders and fills. -/
inductive Side where
  | buy
  | sell
deriving DecidableEq, Repr

/-- Modelled from the spec: a confirmed fill (a Trade) as consumed by the
Position Ledger: account and symbol scope, side, filled quantity and
fill price. -/
structure Fill where
  account : Nat
  symbol : String
  side : Side
  qty : Nat
  price : Rat
deriving DecidableEq, Repr

/-- The signed filled quantity of a fill: buys positive, sells negative. -/
def signedQty (f : Fill) : Int :=
  match f.side with
  | Side.buy => (f.qty : Int)
  | Side.sell => -(f.qty : Int)

/-- Modelled from the spec: one Position row, signed quantity and
volume-weighted average entry price (none while flat). -/
structure LedgerPosition where
  quantity : Int
  avgPrice : Option Rat
deriving DecidableEq, Repr

/-- The ledger state: one Position per (account, symbol), everything
absent being flat. -/
def Ledger : Type := Nat × String → LedgerPosition

/-- The empty ledger: every (account, symbol) is flat. -/
def emptyLedger : Ledger := fun _ => { quantity := 0, avgPrice := none }

/-- Modelled from the spec: the volume-weighted average entry price after
a fill.  Adding to a position in the same direction averages the entry
prices weighted by absolute quantity; reducing keeps the entry price;
crossing through or starting from flat restarts at the fill price; a
position closed to flat has no entry price. -/
def updateAvg (p : LedgerPosition) (f : Fill) : Option Rat :=
  let newQty := p.quantity + signedQty f
  if newQty = 0 then none
  else if p.quantity = 0 ∨ (0 < p.quantity) ≠ (0 < newQty) then some f.price
  else if p.quantity.natAbs < newQty.natAbs then
    some (((p.avgPrice.getD 0) * (p.quantity.natAbs : Rat) + f.price * (f.qty : Rat))
      / ((p.quantity.natAbs : Rat) + (f.qty : Rat)))
  else p.avgPrice

/-- Modelled from the spec: apply_fill of the Position Ledger (section
4.5): updates the signed quantity and the volume-weighted average entry
price of the (account, symbol) row the fill belongs to; every other row
is untouched. -/
def applyFill (led : Ledger) (f : Fill) : Ledger :=
  fun k =>
    if k = (f.account, f.symbol) then
      let p := led k
      { quantity := p.quantity + signedQty f, avgPrice := updateAvg p f }
    else led k

/-- The ledger after a sequence of fills is applied in order to the empty
ledger. -/
def applyFills (fills : List Fill) : Ledger :=
  fills.foldl applyFill emptyLedger

/-- The sum of the signed filled quantities of the fills belonging to one
(account, symbol). -/
def signedFillSum (fills : List Fill) (acct : Nat) (sym : String) : Int :=
  ((fills.filter (fun f => f.account == acct && f.symbol == sym)).map signedQty).sum

/-! ## Risk Engine -/

/-- Modelled from the spec: order kind of a trade intent. -/
inductive OrderKind where
  | market
  | limit
deriving DecidableEq, Repr

/-- Modelled from the spec: an ephemeral TradeIntent as consumed by the
Risk Engine. -/
structure TradeIntent where
  symbol : String
  side : Side
  qty : Nat
  limitPrice : Option Rat
  kind : OrderKind
deriving DecidableEq, Repr

/-- Modelled from the spec: the account snapshot the Risk Engine
evaluates an intent against: realized and unrealized P&L today, the
distinct open symbols, the current absolute notional per symbol, last
known market prices, and the notional already committed by the intent's
strategy run. -/
structure AccountSnapshot where
  realizedPnlToday : Rat
  unrealizedPnlToday : Rat
  openSymbols : List String
  symbolNotional : List (String × Rat)
  marketPrices : List (String × Rat)
  runCommitted : Rat
deriving DecidableEq, Repr

/-- Modelled from the spec: the configured limits of the built-in rules. -/
structure RiskConfig where
  maxDailyLoss : Rat
  maxOpenPositions : Nat
  maxPositionNotional : Rat
  strategyCapitalCap : Rat
deriving DecidableEq, Repr

/-- The price an intent would execute around: the limit price when one is
given, the last known market price of the symbol otherwise. -/
def intentPrice (intent : TradeIntent) (snap : AccountSnapshot) : Rat :=
  intent.limitPrice.getD (((snap.marketPrices.lookup intent.symbol)).getD 0)

/-- The notional value the intent adds: quantity times price. -/
def intentNotional (intent : TradeIntent) (snap : AccountSnapshot) : Rat :=
  (intent.qty : Rat) * intentPrice intent snap

/-- Modelled from the spec: one risk rule of the ordered built-in list:
name, severity of the RiskEvent it appends on deny, the deny predicate
and a human-readable message. -/
structure RiskRule where
  name : String
  severity : String
  denies : RiskConfig → TradeIntent → AccountSnapshot → Bool
  msg : String

/-- Modelled from the spec: the ordered built-in rule list of section
4.2, evaluated fail-fast first-failure-wins.
Max daily loss denies when realized plus unrealized P&L today is at or
below the configured negative threshold; max open positions denies when
the distinct open symbols already reach the cap and the intent would
open a new symbol; max position size denies when the resulting position
notional exceeds the cap; the per-strategy capital cap denies when the
cumulative notional committed by the strategy run would exceed its
allocation.  The spec assigns severity warning or critical depending on
rule without naming which; the loss and capital rules are taken as
critical, the two sizing rules as warning. -/
def builtinRules : List RiskRule :=
  [ { name := "max_daily_loss", severity := "critical",
      denies := fun cfg _ snap =>
        decide (snap.realizedPnlToday + snap.unrealizedPnlToday ≤ cfg.maxDailyLoss),
      msg := "daily loss limit breached" },
    { name := "max_open_positions", severity := "warning",
      denies := fun cfg intent snap =>
        decide (cfg.maxOpenPositions ≤ snap.openSymbols.dedup.length)
          && !(snap.openSymbols.contains intent.symbol),
      msg := "too many open positions" },
    { name := "max_position_size", severity := "warning",
      denies := fun cfg intent snap =>
        decide (cfg.maxPositionNotional <
          ((snap.symbolNotional.lookup intent.symbol)).getD 0 + intentNotional intent snap),
      msg := "position size cap exceeded" },
    { name := "strategy_capital_cap", severity := "critical",
      denies := fun cfg intent snap =>
        decide (cfg.strategyCapitalCap < snap.runCommitted + intentNotional intent snap),
      msg := "strategy capital allocation exceeded" } ]

/-- Modelled from the spec: the Decision an evaluation returns: allow or
deny, the denying rule when any, and a message. -/
structure Decision where
  allow : Bool
  rule : Option String
  message : String
deriving DecidableEq, Repr

/-- Modelled from the spec: an immutable RiskEvent appended when a rule
fires: rule name, severity and message (metadata and timestamp are
supplied by the store). -/
structure RiskEvent where
  rule : String
  severity : String
  message : String
deriving DecidableEq, Repr

/-- Modelled from the spec: evaluate(intent, account_snapshot): walk the
ordered rule list and stop at the first rule that denies; later rules
are not evaluated and do not appear in the result. -/
def evaluate (cfg : RiskConfig) (intent : TradeIntent) (snap : AccountSnapshot) : Decision :=
  match builtinRules.find? (fun r => r.denies cfg intent snap) with
  | some r => { allow := false, rule := some r.name, message := r.msg }
  | none => { allow := true, rule := none, message := "allowed" }

/-- Modelled from the spec: the RiskEvents recorded by one evaluation: a
pass records nothing; a deny appends one event carrying the denying
rule's name, severity and message. -/
def evaluateEvents (cfg : RiskConfig) (intent : TradeIntent) (snap : AccountSnapshot) :
    List RiskEvent :=
  match builtinRules.find? (fun r => r.denies cfg intent snap) with
  | some r => [{ rule := r.name, severity := r.severity, message := r.msg }]
  | none => []

/-- Modelled from the spec: one call of the Risk Engine with the world it
can see threaded explicitly: the engine owns no persisted state and has
no side effects, so the snapshot it hands back is the snapshot it was
given. -/
def evaluateCall (cfg : RiskConfig) (intent : TradeIntent) (snap : AccountSnapshot) :
    Decision × AccountSnapshot :=
  (evaluate cfg intent snap, snap)

/-! ## Helper lemmas -/

/-- Processing a message sequence keeps the failures out and appends the
successful parses in arrival order. -/
lemma processMessages_eq {α : Type} (parse : String → Except String α) :
    ∀ (msgs : List String) (init : List α),
      processMessages parse msgs init =
        init ++ msgs.filterMap (fun m => (parse m).toOption) := by
  intro msgs
  induction msgs with
  | nil => intro init; simp [processMessages]
  | cons m ms ih =>
    intro init
    have hstep : processMessages parse (m :: ms) init =
        processMessages parse ms (onMessage (parse m) init) := rfl
    rw [hstep, ih]
    cases hp : parse m with
    | error msg => simp [onMessage, hp, List.filterMap_cons, Except.toOption]
    | ok d => simp [onMessage, hp, List.filterMap_cons, Except.toOption]

/-! ## Claims -/

/-- C1 counterexample: the typed record the frontend WebSocket subscriber
receives has no field named payload; its payload slot is the field named
data (useWebSocket.ts lines 5-9). -/
theorem websocket_payload_field_refuted :
    WebSocketEventFields.contains "payload" = false ∧
    WebSocketEventFields.contains "data" = true := by
  decide

/-- C1 (amended): every event received by the frontend WebSocket
subscriber is a typed record with exactly the fields event_type, data and
timestamp; the payload slot is the field named data, not payload. -/
theorem websocket_event_record_shape :
    WebSocketEventFields = ["event_type", "data", "timestamp"] ∧
    ("payload" ∈ WebSocketEventFields) = False ∧
    ∀ (α : Type) (e : WebSocketEvent α),
      e = { event_type := e.event_type, data := e.data, timestamp := e.timestamp } := by
  refine ⟨rfl, by simp [WebSocketEventFields], fun α e => rfl⟩

/-- C5 counterexample: the call the consuming layer makes for positions
(loadPositions, positions page lines 41-51) supplies no account
identifier at all: the request path is the bare /api/positions and its
query parameter list is empty. -/
theorem load_positions_no_account_id :
    loadPositionsRequest.query = [] ∧
    (loadPositionsRequest.query.map Prod.fst).contains "accountId" = false ∧
    loadPositionsRequest.path = "/api/positions" :=
  ⟨rfl, rfl, rfl⟩

/-- C5 (amended): the positions interface is consumed without an
accountId argument: the single call made by the consuming layer requests
/api/positions with an empty parameter set, the account scope being
derived server-side from the authenticated session. -/
theorem load_positions_request_shape :
    loadPositionsRequest = { path := "/api/positions", query := [] } ∧
    loadPositionsRequest.query.length = 0 :=
  ⟨rfl, rfl⟩

/-- C6: every Position record returned through the positions interface
carries a signed quantity and (possibly null, embedded as Option)
average entry price, last known market price and derived unrealized P&L:
each of the attributes is a total projection of the record, and the
record is exactly the tuple of its declared fields. -/
theorem position_record_attributes :
    ∀ (p : Position),
      p = { id := p.id, symbol := p.symbol, quantity := p.quantity,
            average_price := p.average_price, current_price := p.current_price,
            unrealized_pnl := p.unrealized_pnl, created_at := p.created_at,
            updated_at := p.updated_at } ∧
      (∃ q : Int, p.quantity = q) ∧
      (∃ a : Option Rat, p.average_price = a) ∧
      (∃ c : Option Rat, p.current_price = c) ∧
      (∃ u : Option Rat, p.unrealized_pnl = u) :=
  fun p => ⟨rfl, ⟨p.quantity, rfl⟩, ⟨p.average_price, rfl⟩, ⟨p.current_price, rfl⟩,
    ⟨p.unrealized_pnl, rfl⟩⟩

/-- C7: Risk Engine evaluation is idempotent and deterministic: a call
leaves the account snapshot untouched, and a second call on the state
the first call left behind returns the same Decision (same allow or deny
outcome, same denying rule, same message). -/
theorem risk_evaluate_idempotent :
    ∀ (cfg : RiskConfig) (intent : TradeIntent) (snap : AccountSnapshot),
      (evaluateCall cfg intent snap).2 = snap ∧
      (evaluateCall cfg intent ((evaluateCall cfg intent snap).2)).1
        = (evaluateCall cfg intent snap).1 :=
  fun _ _ _ => ⟨rfl, rfl⟩

/-- C8: the apiClient response interceptor removes the stored
access_token and redirects to /auth/login exactly when the error carries
HTTP status 401, in that order, before rejecting with the original
error; every non-error response resolves to the response body
response.data, never the full response object. -/
theorem api_client_interceptor_behavior :
    ∀ (α : Type) (e : ApiError α) (r : HttpResponse α),
      onResponse r = r.data ∧
      ((e.response.map (fun x => x.status)) = some 401 →
        onResponseError e = ([Effect.removeToken, Effect.redirect "/auth/login"], e)) ∧
      ((e.response.map (fun x => x.status)) ≠ some 401 →
        onResponseError e = ([], e)) := by
  intro α e r
  refine ⟨rfl, fun h => ?_, fun h => ?_⟩
  · simp [onResponseError, h]
  · simp [onResponseError, h]

/-- C8 witness: a 401 error clears the token and redirects then rejects;
a 200 response resolves to its body. -/
theorem api_client_interceptor_behavior_witness :
    onResponse (HttpResponse.mk 200 (7 : Nat)) = 7 ∧
    onResponseError (ApiError.mk (some (HttpResponse.mk 401 (0 : Nat)))) =
      ([Effect.removeToken, Effect.redirect "/auth/login"],
        ApiError.mk (some (HttpResponse.mk 401 (0 : Nat)))) := by
  have h := api_client_interceptor_behavior Nat
    (ApiError.mk (some (HttpResponse.mk 401 (0 : Nat)))) (HttpResponse.mk 200 (7 : Nat))
  exact ⟨h.1, h.2.1 rfl⟩

/-- C10: for every incoming WebSocket message, a failed JSON parse is
caught and leaves the accumulated events list unchanged, a successful
parse appends the parsed value, and processing a whole message sequence
appends exactly the successful parses in arrival order; the handler is a
total function, so no exception escapes it. -/
theorem ws_onmessage_parse_behavior :
    ∀ (α : Type) (prev : List α) (res : Except String α),
      (∀ msg, res = Except.error msg → onMessage res prev = prev) ∧
      (∀ d, res = Except.ok d → onMessage res prev = prev ++ [d]) ∧
      ∀ (parse : String → Except String α) (msgs : List String) (init : List α),
        processMessages parse msgs init =
          init ++ msgs.filterMap (fun m => (parse m).toOption) := by
  intro α prev res
  refine ⟨fun msg h => ?_, fun d h => ?_, fun parse msgs init => processMessages_eq parse msgs init⟩
  · subst h; rfl
  · subst h; rfl

/-- C10 witness: a malformed message leaves the events list as it was; a
well-formed one is appended at the end. -/
theorem ws_onmessage_parse_behavior_witness :
    onMessage (Except.error "bad json" : Except String Nat) [1, 2] = [1, 2] ∧
    onMessage (Except.ok 3 : Except String Nat) [1, 2] = [1, 2, 3] := by
  have h1 := ws_onmessage_parse_behavior Nat [1, 2] (Except.error "bad json")
  have h2 := ws_onmessage_parse_behavior Nat [1, 2] (Except.ok 3)
  exact ⟨h1.1 "bad json" rfl, h2.2.1 3 rfl⟩

/-- C9: every strategy-run start request the frontend constructs (from
the strategies list page and the strategy detail page, which share the
logic) carries trading_mode paper and an empty config, targets the
default broker account or the first one when none is marked default, and
is not sent at all when the user has zero broker accounts; in particular
no request with trading_mode live can be produced. -/
theorem handle_start_strategy_requests :
    ∀ (accounts : List BrokerAccount),
      handleStartStrategyList accounts = handleStartStrategyDetail accounts ∧
      (accounts = [] → handleStartStrategyList accounts = none) ∧
      ∀ req, handleStartStrategyList accounts = some req →
        req.trading_mode = "paper" ∧ req.trading_mode ≠ "live" ∧ req.config = [] ∧
        ∃ acc, (accounts.find? (fun a => a.is_default) = some acc ∨
                (accounts.find? (fun a => a.is_default) = none ∧ accounts.head? = some acc)) ∧
          req.broker_account_id = acc.id := by
  intro accounts
  match accounts with
  | [] =>
    refine ⟨rfl, fun _ => rfl, fun req h => ?_⟩
    simp [handleStartStrategyList] at h
  | a :: rest =>
    refine ⟨rfl, fun h => by simp at h, fun req hreq => ?_⟩
    simp only [handleStartStrategyList, Option.some.injEq] at hreq
    cases hfind : (a :: rest).find? (fun acc => acc.is_default) with
    | some acc =>
      rw [hfind] at hreq
      subst hreq
      exact ⟨rfl, by simp, rfl, acc, Or.inl rfl, rfl⟩
    | none =>
      rw [hfind] at hreq
      subst hreq
      exact ⟨rfl, by simp, rfl, a, Or.inr ⟨rfl, rfl⟩, rfl⟩

/-- C9 witness: with one non-default and one default account the posted
request targets the default account in paper mode with an empty config,
and with no accounts no request is posted. -/
theorem handle_start_strategy_requests_witness :
    handleStartStrategyList [BrokerAccount.mk 5 false, BrokerAccount.mk 7 true] =
      some (StartRunRequest.mk 7 "paper" []) ∧
    (StartRunRequest.mk 7 "paper" []).trading_mode = "paper" ∧
    (StartRunRequest.mk 7 "paper" []).trading_mode ≠ "live" ∧
    (StartRunRequest.mk 7 "paper" []).config = [] ∧
    handleStartStrategyList [] = none := by
  have h := handle_start_strategy_requests [BrokerAccount.mk 5 false, BrokerAccount.mk 7 true]
  have h0 := handle_start_strategy_requests ([] : List BrokerAccount)
  have hreq := h.2.2 (StartRunRequest.mk 7 "paper" []) (by decide)
  exact ⟨by decide, hreq.1, hreq.2.1, hreq.2.2.1, h0.2.1 rfl⟩

/-- Every rule of the built-in list records severity warning or critical. -/
lemma builtinRules_severity :
    ∀ r ∈ builtinRules, r.severity = "warning" ∨ r.severity = "critical" := by
  intro r hr
  simp only [builtinRules, List.mem_cons, List.not_mem_nil, or_false] at hr
  rcases hr with rfl | rfl | rfl | rfl
  · exact Or.inr rfl
  · exact Or.inl rfl
  · exact Or.inl rfl
  · exact Or.inr rfl

/-- C2: evaluation appends RiskEvents only for violations: an allowed
evaluation records nothing, and every RiskEvent ever produced carries
severity warning or critical, never any other value such as info. -/
theorem risk_event_severity_warning_or_critical :
    ∀ (cfg : RiskConfig) (intent : TradeIntent) (snap : AccountSnapshot),
      ((evaluate cfg intent snap).allow = true → evaluateEvents cfg intent snap = []) ∧
      ∀ ev, ev ∈ evaluateEvents cfg intent snap →
        ev.severity = "warning" ∨ ev.severity = "critical" := by
  intro cfg intent snap
  cases hfind : builtinRules.find? (fun r => r.denies cfg intent snap) with
  | none =>
    refine ⟨fun _ => ?_, fun ev hev => ?_⟩
    · simp [evaluateEvents, hfind]
    · simp [evaluateEvents, hfind] at hev
  | some r =>
    refine ⟨fun hallow => ?_, fun ev hev => ?_⟩
    · simp [evaluate, hfind] at hallow
    · simp only [evaluateEvents, hfind, List.mem_singleton] at hev
      subst hev
      exact builtinRules_severity r (List.mem_of_find?_eq_some hfind)

/-- The witness configuration for the Risk Engine claims. -/
def cfgW : RiskConfig :=
  { maxDailyLoss := -100, maxOpenPositions := 10,
    maxPositionNotional := 1000000, strategyCapitalCap := 1000000 }

/-- The witness intent for the Risk Engine claims. -/
def intentW : TradeIntent :=
  { symbol := "X", side := Side.buy, qty := 1, limitPrice := some 10, kind := OrderKind.limit }

/-- A snapshot the daily-loss rule denies. -/
def snapDeny : AccountSnapshot :=
  { realizedPnlToday := -200, unrealizedPnlToday := 0, openSymbols := [],
    symbolNotional := [], marketPrices := [], runCommitted := 0 }

/-- A snapshot every rule passes. -/
def snapPass : AccountSnapshot :=
  { realizedPnlToday := 0, unrealizedPnlToday := 0, openSymbols := [],
    symbolNotional := [], marketPrices := [], runCommitted := 0 }

/-- C2 witness: the event recorded for a breached daily-loss limit has
severity warning or critical, and an allowed evaluation records no
event. -/
theorem risk_event_severity_warning_or_critical_witness :
    ((RiskEvent.mk "max_daily_loss" "critical" "daily loss limit breached").severity = "warning" ∨
      (RiskEvent.mk "max_daily_loss" "critical" "daily loss limit breached").severity = "critical") ∧
    evaluateEvents cfgW intentW snapPass = [] := by
  have hd := risk_event_severity_warning_or_critical cfgW intentW snapDeny
  have hp := risk_event_severity_warning_or_critical cfgW intentW snapPass
  refine ⟨hd.2 (RiskEvent.mk "max_daily_loss" "critical" "daily loss limit breached") ?_, hp.1 ?_⟩
  · have hev : evaluateEvents cfgW intentW snapDeny =
        [RiskEvent.mk "max_daily_loss" "critical" "daily loss limit breached"] := by
      norm_num [evaluateEvents, builtinRules, cfgW, intentW, snapDeny, List.find?,
        intentNotional, intentPrice]
    rw [hev]
    exact List.mem_singleton.mpr rfl
  · norm_num [evaluate, builtinRules, cfgW, intentW, snapPass, List.find?,
      intentNotional, intentPrice]

/-- Applying one fill changes only the quantity of the row it belongs
to, by its signed quantity. -/
lemma applyFill_quantity (led : Ledger) (f : Fill) (k : Nat × String) :
    (applyFill led f k).quantity =
      (led k).quantity + (if k = (f.account, f.symbol) then signedQty f else 0) := by
  by_cases h : k = (f.account, f.symbol) <;> simp [applyFill, h]

/-- Folding a fill list over any starting ledger adds exactly the signed
sum of the matching fills to each row. -/
lemma foldl_applyFill_quantity :
    ∀ (fills : List Fill) (led : Ledger) (acct : Nat) (sym : String),
      ((fills.foldl applyFill led) (acct, sym)).quantity =
        (led (acct, sym)).quantity + signedFillSum fills acct sym := by
  intro fills
  induction fills with
  | nil => intro led acct sym; simp [signedFillSum]
  | cons f fs ih =>
    intro led acct sym
    simp only [List.foldl_cons]
    rw [ih, applyFill_quantity]
    simp only [signedFillSum, List.filter_cons]
    by_cases h : f.account = acct ∧ f.symbol = sym
    · obtain ⟨h1, h2⟩ := h
      subst h1
      subst h2
      simp
      ring
    · have hb : (f.account == acct && f.symbol == sym) = false := by
        rcases not_and_or.mp h with h1 | h1 <;> simp [h1]
      have hk : ¬ (acct, sym) = (f.account, f.symbol) := by
        intro hEq
        rw [Prod.mk.injEq] at hEq
        exact h ⟨hEq.1.symm, hEq.2.symm⟩
      rw [hb, if_neg hk]
      simp [signedFillSum]

/-- C3: after any sequence of applied fills, for every account and every
symbol the signed Position quantity equals the sum of the signed filled
quantities of the Trades for that (account, symbol), buys counted
positive and sells negative. -/
theorem position_quantity_eq_signed_fill_sum :
    ∀ (fills : List Fill) (acct : Nat) (sym : String),
      (applyFills fills (acct, sym)).quantity = signedFillSum fills acct sym := by
  intro fills acct sym
  have h := foldl_applyFill_quantity fills emptyLedger acct sym
  simpa [applyFills, emptyLedger] using h

/-- One applied Order Manager event either leaves the state unchanged
(an ignored event) or takes an allowed transition. -/
lemma applyEvent_step (s : OrderState) (e : MgrEvent) :
    applyEvent s e = s ∨ validTransition s (applyEvent s e) = true := by
  cases s <;> cases e <;> simp [applyEvent, validTransition]

/-- No event takes a PENDING order straight to FILLED. -/
lemma applyEvent_pending_ne_filled (e : MgrEvent) :
    applyEvent OrderState.pending e ≠ OrderState.filled := by
  cases e <;> simp [applyEvent]

/-- The run of an order always starts with its start state. -/
lemma runFrom_cons (s : OrderState) (es : List MgrEvent) :
    ∃ t, runFrom s es = s :: t := by
  cases es <;> exact ⟨_, rfl⟩

/-- Every run of the Order Manager is a valid path of the machine. -/
lemma runFrom_validPath :
    ∀ (es : List MgrEvent) (s : OrderState), validPath (runFrom s es) = true := by
  intro es
  induction es with
  | nil => intro s; rfl
  | cons e es ih =>
    intro s
    obtain ⟨t, ht⟩ := runFrom_cons (applyEvent s e) es
    have hrun : runFrom s (e :: es) = s :: applyEvent s e :: t := by
      simp [runFrom, ht]
    rw [hrun]
    simp only [validPath, Bool.and_eq_true, Bool.or_eq_true, beq_iff_eq]
    refine ⟨?_, ?_⟩
    · rcases applyEvent_step s e with h | h
      · exact Or.inl h.symm
      · exact Or.inr h
    · rw [← ht]
      exact ih (applyEvent s e)

/-- In no run does FILLED ever immediately follow PENDING. -/
lemma runFrom_no_pending_filled :
    ∀ (es : List MgrEvent) (s : OrderState),
      List.Chain' (fun a b => ¬(a = OrderState.pending ∧ b = OrderState.filled))
        (runFrom s es) := by
  intro es
  induction es with
  | nil => intro s; simp [runFrom]
  | cons e es ih =>
    intro s
    obtain ⟨t, ht⟩ := runFrom_cons (applyEvent s e) es
    have hrun : runFrom s (e :: es) = s :: applyEvent s e :: t := by
      simp [runFrom, ht]
    rw [hrun]
    rw [List.chain'_cons]
    refine ⟨fun hpf => ?_, ?_⟩
    · obtain ⟨h1, h2⟩ := hpf
      subst h1
      exact applyEvent_pending_ne_filled e h2
    · rw [← ht]
      exact ih (applyEvent s e)

/-- C4: the sequence of states an order is observed in, starting from
its creation in PENDING, is a valid path through the section 4.3 state
machine, and in particular FILLED is never observed immediately after
PENDING: no order skips SUBMITTED. -/
theorem order_state_sequence_valid_path :
    ∀ (events : List MgrEvent),
      (observedStates events).head? = some OrderState.pending ∧
      validPath (observedStates events) = true ∧
      List.Chain' (fun a b => ¬(a = OrderState.pending ∧ b = OrderState.filled))
        (observedStates events) := by
  intro events
  refine ⟨?_, runFrom_validPath events OrderState.pending,
    runFrom_no_pending_filled events OrderState.pending⟩
  obtain ⟨t, ht⟩ := runFrom_cons OrderState.pending events
  rw [observedStates, ht]
  rfl

end MAP
